import Mathlib

/-!
Shallow embedding of the hikma-health-server appointment and clinic models
(`src/models/appointment.ts` — provided as `src/unnamed/part_000` —,
`src/models/clinic.ts`, and the clinic route's `deleteClinic` wrapper).

Database tables are lists of rows; timestamps are abstract integers; the
`now()` SQL expression, and every freshly generated `uuidV1()` value, are
passed in as explicit parameters.  `jsonb` metadata values are modelled as
their canonical string serialisation.  A Kysely statement that can throw
(inside `db.transaction().execute`) is modelled with `Except`: an error
result means the transaction aborted with no state change.
-/

set_option autoImplicit false

/-- Timestamps (`timestamp with time zone` columns and `Date` values). -/
abbrev Date := Int

/-- A row of the `appointments` table (`Appointment.Table.T`). -/
structure AppointmentRow where
  id : String
  provider_id : Option String
  clinic_id : String
  patient_id : String
  user_id : String
  current_visit_id : String
  fulfilled_visit_id : Option String
  timestamp : Date
  duration : Int
  reason : String
  notes : String
  status : String
  metadata : String
  is_deleted : Bool
  created_at : Date
  updated_at : Date
  last_modified : Date
  server_created_at : Date
  deleted_at : Option Date
deriving Repr, DecidableEq

/-- A row of the `visits` table, with the columns `Appointment.API.save`
inserts (`Visit.Table` is not under `src/`; the column list is taken from the
insert statement in `save`). -/
structure VisitRow where
  id : String
  patient_id : String
  clinic_id : String
  provider_id : String
  is_deleted : Bool
  created_at : Date
  updated_at : Date
  last_modified : Date
  server_created_at : Date
  deleted_at : Option Date
  metadata : String
  provider_name : String
deriving Repr, DecidableEq

/-- A row of the `clinics` table (`Clinic.Table.T`). -/
structure ClinicRow where
  id : String
  name : Option String
  is_deleted : Bool
  created_at : Date
  updated_at : Date
  last_modified : Date
  server_created_at : Date
  deleted_at : Option Date
deriving Repr, DecidableEq

/-- A row of the `users` table, restricted to the columns `Clinic.softDelete`
reads (`User.Table` is not under `src/`; `clinic_id` and `is_deleted` are the
columns its query filters on). -/
structure UserRow where
  id : String
  clinic_id : String
  is_deleted : Bool
deriving Repr, DecidableEq

/-- The database state: the four tables the provided source touches. -/
structure DB where
  appointments : List AppointmentRow
  visits : List VisitRow
  clinics : List ClinicRow
  users : List UserRow
deriving Repr, DecidableEq

/-- Modelled from the spec: `isValidUUID` is imported from `src/lib/utils`,
which is not in the provided source.  A valid UUID is the canonical
36-character hyphenated hexadecimal form; in particular the empty string is
not a valid UUID. -/
def isUUIDChar (i : Nat) (c : Char) : Bool :=
  if i = 8 ∨ i = 13 ∨ i = 18 ∨ i = 23 then c = '-'
  else c.isDigit || ('a' ≤ c && c ≤ 'f') || ('A' ≤ c && c ≤ 'F')

/-- Modelled from the spec: the UUID validity check used by
`Appointment.API.save` (see `isUUIDChar`). -/
def isValidUUID (s : String) : Bool :=
  s.length = 36 && s.toList.enum.all (fun p => isUUIDChar p.1 p.2)

/-- Modelled from the spec: `toSafeDateString` from `src/lib/utils` is not in
the provided source; it normalises a date value into a string cast back to
`timestamp with time zone`.  On the abstract timestamps of this model it is
the identity. -/
def toSafeDateString (d : Date) : Date := d

/-- JavaScript `a || b` on strings: the empty string is falsy. -/
def orElseStr (a b : String) : String := if a = "" then b else a

/-- The input record of `Appointment.API.save` (`Appointment.EncodedT`). -/
structure AppointmentInput where
  id : String
  provider_id : Option String
  clinic_id : String
  patient_id : String
  user_id : String
  current_visit_id : String
  fulfilled_visit_id : Option String
  timestamp : Date
  duration : Int
  reason : String
  notes : String
  status : String
  metadata : String
  is_deleted : Bool
  created_at : Date
  updated_at : Date
  last_modified : Date
  server_created_at : Date
  deleted_at : Option Date
deriving Repr, DecidableEq

/-- The `values({...})` record of the appointment insert in
`Appointment.API.save`.  `metadata` is stored as the jsonb value of the
input's metadata (`JSON.stringify(safeJSONParse(appointment.metadata, {}))`
round-trips an already-parsed record, modelled as the identity on the
canonical serialisation). -/
def saveNewRow (appointment : AppointmentInput) (apptId visitId : String)
    (now : Date) : AppointmentRow :=
  { id := apptId
    clinic_id := appointment.clinic_id
    patient_id := appointment.patient_id
    user_id := appointment.user_id
    current_visit_id := visitId
    created_at := toSafeDateString appointment.created_at
    updated_at := toSafeDateString appointment.updated_at
    last_modified := now
    server_created_at := now
    deleted_at := none
    metadata := appointment.metadata
    duration := appointment.duration
    reason := appointment.reason
    notes := appointment.notes
    status := appointment.status
    fulfilled_visit_id := appointment.fulfilled_visit_id
    timestamp := appointment.timestamp
    is_deleted := false
    provider_id := appointment.provider_id }

/-- The `onConflict(oc => oc.column("id").doUpdateSet({...}))` update of
`Appointment.API.save`, applied to the existing row `old`; `excluded` is the
proposed insert row.  The `server_created_at` assignment is commented out in
the source, so the existing row keeps its `server_created_at`. -/
def saveConflictUpdate (appointment : AppointmentInput)
    (excluded : AppointmentRow) (now : Date) (old : AppointmentRow) :
    AppointmentRow :=
  { old with
    id := excluded.id
    clinic_id := appointment.clinic_id
    patient_id := excluded.patient_id
    user_id := excluded.user_id
    current_visit_id := excluded.current_visit_id
    created_at := toSafeDateString appointment.created_at
    updated_at := toSafeDateString appointment.updated_at
    last_modified := now
    deleted_at := excluded.deleted_at
    metadata := excluded.metadata
    duration := appointment.duration
    reason := appointment.reason
    notes := appointment.notes
    status := appointment.status
    fulfilled_visit_id := appointment.fulfilled_visit_id
    timestamp := appointment.timestamp
    is_deleted := false
    provider_id := appointment.provider_id }

/-- The `visits` row inserted by the visit-creation branch of
`Appointment.API.save` (`metadata: {}` is the empty jsonb object; the
`user_id` of the input is stored as the visit's `provider_id`). -/
def saveNewVisitRow (appointment : AppointmentInput)
    (currentUserName visitId : String) (now : Date) : VisitRow :=
  { id := visitId
    patient_id := appointment.patient_id
    clinic_id := appointment.clinic_id
    provider_id := appointment.user_id
    is_deleted := false
    created_at := now
    updated_at := now
    last_modified := now
    server_created_at := now
    deleted_at := none
    metadata := "{}"
    provider_name := currentUserName }

/-- PostgreSQL `INSERT ... ON CONFLICT (id) DO UPDATE`: if some row already
has the proposed row's id, every such row is updated in place; otherwise the
proposed row is appended. -/
def upsertRows (rows : List AppointmentRow) (newRow : AppointmentRow)
    (updateRow : AppointmentRow → AppointmentRow) : List AppointmentRow :=
  if rows.any (fun r => r.id == newRow.id) then
    rows.map (fun r => if r.id == newRow.id then updateRow r else r)
  else rows ++ [newRow]

/-- `Appointment.API.save(id, appointment, currentUserName)`.  `now` stands
for the SQL `now()`; `freshVisitId` and `freshApptId` are the values the two
potential `uuidV1()` calls would produce.  An `Except.error` result is the
transaction aborting with the database unchanged (the visit insert throws on
a duplicate visit id). -/
def Appointment.API.save (id : Option String)
    (appointment : AppointmentInput) (currentUserName : String) (now : Date)
    (freshVisitId freshApptId : String) (db : DB) :
    Except String (String × DB) :=
  let visitId :=
    if appointment.current_visit_id != "" &&
        isValidUUID appointment.current_visit_id then
      appointment.current_visit_id
    else freshVisitId
  let afterVisit : Except String (String × List VisitRow) :=
    if !isValidUUID appointment.current_visit_id then
      if db.visits.any (fun v => v.id == visitId) then
        Except.error "duplicate key value violates unique constraint"
      else
        Except.ok (visitId,
          db.visits ++ [saveNewVisitRow appointment currentUserName visitId now])
    else Except.ok (visitId, db.visits)
  match afterVisit with
  | Except.error e => Except.error e
  | Except.ok (visitId2, visits2) =>
    let apptId := orElseStr (orElseStr (id.getD "") appointment.id) freshApptId
    let newRow := saveNewRow appointment apptId visitId2 now
    Except.ok (apptId,
      { db with
        visits := visits2
        appointments :=
          upsertRows db.appointments newRow
            (saveConflictUpdate appointment newRow now) })

/-- `Appointment.API.softDelete(id)`: update the appointments with that id,
setting the deletion flag and the three timestamps. -/
def Appointment.API.softDelete (id : String) (now : Date) (db : DB) : DB :=
  { db with
    appointments := db.appointments.map (fun r =>
      if r.id == id then
        { r with is_deleted := true, deleted_at := some now,
                 updated_at := now, last_modified := now }
      else r) }

/-- `Appointment.API.getAll()`: all appointments with `is_deleted = false`. -/
def Appointment.API.getAll (db : DB) : List AppointmentRow :=
  db.appointments.filter (fun r => r.is_deleted == false)

/-- `Appointment.API.getById(id)`: `executeTakeFirst` over the appointments
with that id and `is_deleted = false`. -/
def Appointment.API.getById (id : String) (db : DB) : Option AppointmentRow :=
  (db.appointments.filter (fun r => r.id == id && r.is_deleted == false)).head?

/-- `Appointment.Sync.upsertFromDelta(delta)`: calls
`API.save(delta.id || uuidV1(), delta, "")`; `freshDeltaId` is the value that
`uuidV1()` call would produce. -/
def Appointment.Sync.upsertFromDelta (delta : AppointmentInput) (now : Date)
    (freshDeltaId freshVisitId freshApptId : String) (db : DB) :
    Except String (String × DB) :=
  Appointment.API.save (some (orElseStr delta.id freshDeltaId)) delta "" now
    freshVisitId freshApptId db

/-- `Appointment.Sync.deleteFromDelta(id)`: calls `API.softDelete(id)`. -/
def Appointment.Sync.deleteFromDelta (id : String) (now : Date) (db : DB) :
    DB :=
  Appointment.API.softDelete id now db

/-- `Clinic.getAll()`: all clinics with `is_deleted = false`. -/
def Clinic.getAll (db : DB) : List ClinicRow :=
  db.clinics.filter (fun r => r.is_deleted == false)

/-- `Clinic.softDelete(id)`: select the non-deleted users of the clinic; if
any exist, throw (first component `some` error message) leaving the database
unchanged; otherwise set the clinic's deletion flag and timestamp. -/
def Clinic.softDelete (id : String) (now : Date) (db : DB) :
    Option String × DB :=
  if (db.users.filter
      (fun u => u.clinic_id == id && u.is_deleted == false)).length > 0 then
    (some "Cannot delete clinic because it has registered users", db)
  else
    (none,
      { db with
        clinics := db.clinics.map (fun r =>
          if r.id == id then
            { r with is_deleted := true, deleted_at := some now }
          else r) })

/-- The clinic row inserted by the creation branch of `Clinic.save`. -/
def newClinicRow (freshId name : String) (now : Date) : ClinicRow :=
  { id := freshId
    name := some name
    is_deleted := false
    created_at := now
    updated_at := now
    last_modified := now
    server_created_at := now
    deleted_at := none }

/-- `Clinic.save({id, name})`: when `id` is missing (or not a string) or has
length at most 5, insert a brand-new clinic under a fresh `uuidV1()`;
otherwise update the name of the clinics with that id. -/
def Clinic.save (id : Option String) (name : String) (now : Date)
    (freshId : String) (db : DB) : DB :=
  match id with
  | none => { db with clinics := db.clinics ++ [newClinicRow freshId name now] }
  | some s =>
    if s.length ≤ 5 then
      { db with clinics := db.clinics ++ [newClinicRow freshId name now] }
    else
      { db with
        clinics := db.clinics.map (fun r =>
          if r.id == s then { r with name := some name } else r) }

/-- The visit id that ends up on the saved appointment row: the input's
`current_visit_id` when it is a valid UUID, the fresh `uuidV1()` value
otherwise.  This follows the spec's description of the branch; `save`
itself additionally tests JavaScript truthiness of `current_visit_id`,
and `savedVisitId_eq` shows the two agree. -/
def savedVisitId (appointment : AppointmentInput) (freshVisitId : String) :
    String :=
  if isValidUUID appointment.current_visit_id then
    appointment.current_visit_id
  else freshVisitId

/-- A sample appointment input whose `current_visit_id` is not a valid
UUID, used to instantiate the theorems below. -/
def exInput1 : AppointmentInput :=
  { id := "A", provider_id := some "P", clinic_id := "C", patient_id := "Q",
    user_id := "U", current_visit_id := "", fulfilled_visit_id := none,
    timestamp := 1, duration := 30, reason := "r", notes := "n",
    status := "pending", metadata := "{}", is_deleted := false,
    created_at := 2, updated_at := 3, last_modified := 4,
    server_created_at := 5, deleted_at := none }

/-- The empty database. -/
def exDb0 : DB := { appointments := [], visits := [], clinics := [], users := [] }

/-- The database produced by saving `exInput1` into `exDb0`. -/
def exDb2 : DB :=
  { appointments := [saveNewRow exInput1 "A" "V" 7],
    visits := [saveNewVisitRow exInput1 "u" "V" 7],
    clinics := [], users := [] }

/-- A pre-existing appointment row with id `"A"`, used to instantiate the
conflict branch. -/
def exRowA : AppointmentRow := saveNewRow exInput1 "A" "W" 0

/-- A database that already holds an appointment row with id `"A"`. -/
def exDb4 : DB :=
  { appointments := [exRowA], visits := [], clinics := [], users := [] }

/-- The database produced by syncing `exInput1` as a delta into `exDb4`. -/
def exDb4' : DB :=
  { appointments :=
      [saveConflictUpdate exInput1 (saveNewRow exInput1 "A" "V" 7) 7 exRowA],
    visits := [saveNewVisitRow exInput1 "" "V" 7],
    clinics := [], users := [] }

/-- A user registered to clinic `"c1"` and not deleted. -/
def exUser1 : UserRow := { id := "u1", clinic_id := "c1", is_deleted := false }

/-- A clinic row with id `"c1"`. -/
def exClinic1 : ClinicRow := newClinicRow "c1" "Main" 0

/-- A database holding clinic `"c1"` and one active user of it. -/
def exDbC : DB :=
  { appointments := [], visits := [], clinics := [exClinic1],
    users := [exUser1] }

/-- An appointment row after `Appointment.API.softDelete`: only the
deletion flag and the three timestamps change. -/
def softDeletedAppointmentRow (r : AppointmentRow) (now : Date) :
    AppointmentRow :=
  { r with is_deleted := true, deleted_at := some now, updated_at := now,
           last_modified := now }

/-- A clinic row after `Clinic.softDelete`: only the deletion flag and the
deletion timestamp change. -/
def softDeletedClinicRow (r : ClinicRow) (now : Date) : ClinicRow :=
  { r with is_deleted := true, deleted_at := some now }

theorem isValidUUID_empty : isValidUUID "" = false := by decide

theorem bne_empty_of_valid {s : String} (h : isValidUUID s = true) :
    (s != "") = true := by
  rcases eq_or_ne s "" with hs | hs
  · subst hs; exact absurd h (by decide)
  · simp [bne_iff_ne, hs]

theorem savedVisitId_eq (a : AppointmentInput) (fv : String) :
    (if a.current_visit_id != "" && isValidUUID a.current_visit_id then
      a.current_visit_id
    else fv) = savedVisitId a fv := by
  cases hval : isValidUUID a.current_visit_id
  · simp [savedVisitId, hval]
  · simp [savedVisitId, hval, bne_empty_of_valid hval]

theorem save_ok_cases (id : Option String) (a : AppointmentInput)
    (cu : String) (now : Date) (fv fa : String) (db : DB) (aid : String)
    (db' : DB)
    (h : Appointment.API.save id a cu now fv fa db = Except.ok (aid, db')) :
    aid = orElseStr (orElseStr (id.getD "") a.id) fa ∧
    db'.clinics = db.clinics ∧ db'.users = db.users ∧
    ((isValidUUID a.current_visit_id = true ∧ db'.visits = db.visits) ∨
     (isValidUUID a.current_visit_id = false ∧
       db.visits.any (fun v => v.id == fv) = false ∧
       db'.visits = db.visits ++ [saveNewVisitRow a cu fv now])) ∧
    db'.appointments = upsertRows db.appointments
      (saveNewRow a (orElseStr (orElseStr (id.getD "") a.id) fa)
        (savedVisitId a fv) now)
      (saveConflictUpdate a
        (saveNewRow a (orElseStr (orElseStr (id.getD "") a.id) fa)
          (savedVisitId a fv) now) now) := by
  cases hval : isValidUUID a.current_visit_id
  · cases hcol : db.visits.any (fun v => v.id == fv)
    · simp only [Appointment.API.save, hval, hcol, Bool.and_false,
        Bool.not_false, Bool.false_eq_true, if_false, ite_false, ite_true,
        if_true, Except.ok.injEq, Prod.mk.injEq] at h
      obtain ⟨h1, h2⟩ := h
      subst h1
      subst h2
      refine ⟨rfl, rfl, rfl, Or.inr ⟨rfl, rfl, rfl⟩, ?_⟩
      simp [savedVisitId, hval]
    · simp only [Appointment.API.save, hval, hcol, Bool.and_false,
        Bool.not_false, Bool.false_eq_true, if_false, ite_false, ite_true,
        if_true] at h
      exact absurd h (by simp)
  · have hne := bne_empty_of_valid hval
    simp only [Appointment.API.save, hval, hne, Bool.and_true,
      Bool.not_true, Bool.false_eq_true, if_false, ite_false, ite_true,
      if_true, Except.ok.injEq, Prod.mk.injEq] at h
    obtain ⟨h1, h2⟩ := h
    subst h1
    subst h2
    refine ⟨rfl, rfl, rfl, Or.inl ⟨rfl, rfl⟩, ?_⟩
    simp [savedVisitId, hval]

theorem save_ok_of_fresh (id : Option String) (a : AppointmentInput)
    (cu : String) (now : Date) (fv fa : String) (db : DB)
    (hfv : db.visits.any (fun v => v.id == fv) = false) :
    ∃ p, Appointment.API.save id a cu now fv fa db = Except.ok p := by
  cases hval : isValidUUID a.current_visit_id
  · exact ⟨_, by
      simp only [Appointment.API.save, hval, hfv, Bool.and_false,
        Bool.not_false, Bool.false_eq_true, if_false, ite_false, ite_true,
        if_true]
      rfl⟩
  · have hne := bne_empty_of_valid hval
    exact ⟨_, by
      simp only [Appointment.API.save, hval, hne, Bool.and_true,
        Bool.not_true, Bool.false_eq_true, if_false, ite_false, ite_true,
        if_true]
      rfl⟩

/-- Claim C1: `Appointment.Sync.upsertFromDelta(d)` produces exactly the
result and state change of `Appointment.API.save(d.id || uuidV1(), d, "")`,
and `Appointment.Sync.deleteFromDelta(id)` exactly that of
`Appointment.API.softDelete(id)`: the Sync layer adds no logic of its own. -/
theorem sync_layer_thin_passthrough :
    (∀ (delta : AppointmentInput) (now : Date)
        (freshDeltaId freshVisitId freshApptId : String) (db : DB),
        Appointment.Sync.upsertFromDelta delta now freshDeltaId freshVisitId
            freshApptId db =
          Appointment.API.save (some (orElseStr delta.id freshDeltaId)) delta
            "" now freshVisitId freshApptId db) ∧
    (∀ (id : String) (now : Date) (db : DB),
        Appointment.Sync.deleteFromDelta id now db =
          Appointment.API.softDelete id now db) :=
  ⟨fun _ _ _ _ _ _ => rfl, fun _ _ _ => rfl⟩

/-- Claim C2: a successful `Appointment.API.save` changes neither the
clinics nor the users table; it appends exactly one new visit row if and
only if the input's `current_visit_id` is not a valid UUID (and then the
fresh id is used as the visit id, while a valid `current_visit_id` is
reused); and the appointments table changes exactly by the single-row
upsert of the new appointment row. -/
theorem save_at_most_two_writes (id : Option String)
    (appointment : AppointmentInput) (currentUserName : String) (now : Date)
    (freshVisitId freshApptId : String) (db : DB) (aid : String) (db' : DB)
    (h : Appointment.API.save id appointment currentUserName now freshVisitId
        freshApptId db = Except.ok (aid, db')) :
    db'.clinics = db.clinics ∧ db'.users = db.users ∧
    (isValidUUID appointment.current_visit_id = true →
        db'.visits = db.visits ∧
        savedVisitId appointment freshVisitId =
          appointment.current_visit_id) ∧
    (isValidUUID appointment.current_visit_id = false →
        db'.visits = db.visits ++
          [saveNewVisitRow appointment currentUserName freshVisitId now] ∧
        savedVisitId appointment freshVisitId = freshVisitId) ∧
    db'.appointments = upsertRows db.appointments
      (saveNewRow appointment aid (savedVisitId appointment freshVisitId) now)
      (saveConflictUpdate appointment
        (saveNewRow appointment aid (savedVisitId appointment freshVisitId)
          now) now) := by
  obtain ⟨h1, h2, h3, h4, h5⟩ :=
    save_ok_cases id appointment currentUserName now freshVisitId freshApptId
      db aid db' h
  subst h1
  refine ⟨h2, h3, ?_, ?_, h5⟩
  · intro hval
    rcases h4 with ⟨_, hv⟩ | ⟨hf, _, _⟩
    · exact ⟨hv, by simp [savedVisitId, hval]⟩
    · rw [hval] at hf; exact absurd hf (by simp)
  · intro hval
    rcases h4 with ⟨ht, _⟩ | ⟨_, _, hv⟩
    · rw [hval] at ht; exact absurd ht (by simp)
    · exact ⟨hv, by simp [savedVisitId, hval]⟩

/-- Witness for C2 at a concrete input. -/
theorem save_at_most_two_writes_witness : exDb2.clinics = exDb0.clinics :=
  (save_at_most_two_writes (some "A") exInput1 "u" 7 "V" "F" exDb0 "A" exDb2
    rfl).1

/-- Claim C10: when `Appointment.Sync.upsertFromDelta` processes a delta
whose `current_visit_id` is not a valid UUID, the visit row it creates has
`provider_name` equal to the empty string (the `currentUserName` it passes)
and `provider_id` equal to the delta's `user_id`. -/
theorem upsertFromDelta_visit_provider_fields (delta : AppointmentInput)
    (now : Date) (freshDeltaId freshVisitId freshApptId : String) (db : DB)
    (aid : String) (db' : DB)
    (hinv : isValidUUID delta.current_visit_id = false)
    (h : Appointment.Sync.upsertFromDelta delta now freshDeltaId freshVisitId
        freshApptId db = Except.ok (aid, db')) :
    db'.visits = db.visits ++ [saveNewVisitRow delta "" freshVisitId now] ∧
    (saveNewVisitRow delta "" freshVisitId now).provider_name = "" ∧
    (saveNewVisitRow delta "" freshVisitId now).provider_id = delta.user_id ∧
    (saveNewVisitRow delta "" freshVisitId now).id = freshVisitId := by
  obtain ⟨_, _, _, h4, _⟩ :=
    save_ok_cases (some (orElseStr delta.id freshDeltaId)) delta "" now
      freshVisitId freshApptId db aid db' h
  rcases h4 with ⟨ht, _⟩ | ⟨_, _, hv⟩
  · rw [hinv] at ht; exact absurd ht (by simp)
  · exact ⟨hv, rfl, rfl, rfl⟩

/-- Witness for C10 at a concrete input. -/
theorem upsertFromDelta_visit_provider_fields_witness :
    (saveNewVisitRow exInput1 "" "V" 7).provider_id = exInput1.user_id :=
  (upsertFromDelta_visit_provider_fields exInput1 7 "D" "V" "F" exDb0 "A"
    { appointments := [saveNewRow exInput1 "A" "V" 7],
      visits := [saveNewVisitRow exInput1 "" "V" 7],
      clinics := [], users := [] } (by decide) rfl).2.2.1

theorem upsertRows_mem_cases (rows : List AppointmentRow)
    (newRow : AppointmentRow) (updateRow : AppointmentRow → AppointmentRow)
    (r : AppointmentRow) (hr : r ∈ upsertRows rows newRow updateRow) :
    r = newRow ∨ (r ∈ rows ∧ r.id ≠ newRow.id) ∨
      ∃ s ∈ rows, s.id = newRow.id ∧ r = updateRow s := by
  unfold upsertRows at hr
  split at hr
  · obtain ⟨s, hs, hmap⟩ := List.mem_map.mp hr
    by_cases hid : s.id = newRow.id
    · right; right
      refine ⟨s, hs, hid, ?_⟩
      rw [← hmap]
      simp [hid]
    · right; left
      have hrs : r = s := by rw [← hmap]; simp [hid]
      exact ⟨hrs ▸ hs, by rw [hrs]; exact hid⟩
  · rename_i hany
    rcases List.mem_append.mp hr with h1 | h1
    · right; left
      refine ⟨h1, fun he => hany ?_⟩
      exact List.any_eq_true.mpr ⟨r, h1, beq_iff_eq.mpr he⟩
    · left
      simpa using h1

theorem upsertRows_target_mem (rows : List AppointmentRow)
    (newRow : AppointmentRow) (updateRow : AppointmentRow → AppointmentRow)
    (hid : ∀ s, (updateRow s).id = newRow.id) :
    ∃ r ∈ upsertRows rows newRow updateRow, r.id = newRow.id := by
  unfold upsertRows
  split
  · rename_i hany
    obtain ⟨s, hs, hbeq⟩ := List.any_eq_true.mp hany
    refine ⟨updateRow s, List.mem_map.mpr ⟨s, hs, ?_⟩, hid s⟩
    simp [beq_iff_eq.mp hbeq]
  · exact ⟨newRow, List.mem_append.mpr (Or.inr (by simp)), rfl⟩

/-- Claim C7: every successful `Appointment.API.save` leaves the affected
appointment row (the row whose id is the returned id) with `last_modified`
equal to the current server time, whether the row was freshly inserted or
updated on id conflict; such a row exists after every successful save. -/
theorem save_sets_last_modified (id : Option String)
    (appointment : AppointmentInput) (currentUserName : String) (now : Date)
    (freshVisitId freshApptId : String) (db : DB) (aid : String) (db' : DB)
    (h : Appointment.API.save id appointment currentUserName now freshVisitId
        freshApptId db = Except.ok (aid, db')) :
    (∀ r ∈ db'.appointments, r.id = aid → r.last_modified = now) ∧
    (∃ r ∈ db'.appointments, r.id = aid) := by
  obtain ⟨h1, _, _, _, h5⟩ :=
    save_ok_cases id appointment currentUserName now freshVisitId freshApptId
      db aid db' h
  subst h1
  constructor
  · intro r hr hid
    rw [h5] at hr
    rcases upsertRows_mem_cases _ _ _ r hr with hnew | ⟨_, hne⟩ | ⟨s, _, _, hupd⟩
    · rw [hnew]; rfl
    · exact absurd hid hne
    · rw [hupd]; rfl
  · rw [h5]
    exact upsertRows_target_mem _ _ _ (fun s => rfl)

/-- Witness for C7 at a concrete input. -/
theorem save_sets_last_modified_witness :
    ∃ r ∈ exDb2.appointments, r.id = "A" :=
  (save_sets_last_modified (some "A") exInput1 "u" 7 "V" "F" exDb0 "A" exDb2
    rfl).2

theorem countP_id_eq_one (rows : List AppointmentRow) (a : String)
    (huniq : rows.Pairwise (fun r s => r.id ≠ s.id))
    (hany : rows.any (fun r => r.id == a) = true) :
    rows.countP (fun r => r.id == a) = 1 := by
  induction rows with
  | nil => simp at hany
  | cons head tail ih =>
    rcases List.pairwise_cons.mp huniq with ⟨hhead, htail⟩
    by_cases hh : head.id = a
    · have hz : tail.countP (fun r => r.id == a) = 0 := by
        rw [List.countP_eq_zero]
        intro s hs
        simp only [beq_iff_eq]
        rw [← hh]
        exact fun hsa => (hhead s hs) hsa.symm
      simp [List.countP_cons, hh, hz]
    · have hany' : tail.any (fun r => r.id == a) = true := by
        rcases List.any_eq_true.mp hany with ⟨s, hs, hsa⟩
        rcases List.mem_cons.mp hs with rfl | hs'
        · exact absurd (beq_iff_eq.mp hsa) hh
        · exact List.any_eq_true.mpr ⟨s, hs', hsa⟩
      simp [List.countP_cons, hh, ih htail hany']

@[simp] theorem saveNewRow_id (a : AppointmentInput) (aid v : String)
    (now : Date) : (saveNewRow a aid v now).id = aid := rfl

@[simp] theorem saveConflictUpdate_id (a : AppointmentInput)
    (ex : AppointmentRow) (now : Date) (old : AppointmentRow) :
    (saveConflictUpdate a ex now old).id = ex.id := rfl

theorem upsertRows_count_one (rows : List AppointmentRow)
    (newRow : AppointmentRow) (updateRow : AppointmentRow → AppointmentRow)
    (hupd : ∀ s, (updateRow s).id = newRow.id)
    (huniq : rows.Pairwise (fun r s => r.id ≠ s.id)) :
    ((upsertRows rows newRow updateRow).filter
        (fun r => r.id == newRow.id)).length = 1 := by
  unfold upsertRows
  split
  · rename_i hany
    rw [← List.countP_eq_length_filter, List.countP_map]
    have hcong : rows.countP ((fun r => r.id == newRow.id) ∘
        (fun r => if r.id == newRow.id then updateRow r else r)) =
        rows.countP (fun r => r.id == newRow.id) := by
      apply List.countP_congr
      intro x _
      by_cases hx : x.id = newRow.id
      · simp [Function.comp, hx, hupd]
      · simp [Function.comp, hx]
    rw [hcong]
    exact countP_id_eq_one rows newRow.id huniq hany
  · rename_i hany
    rw [List.filter_append]
    have hz : rows.filter (fun r => r.id == newRow.id) = [] := by
      rw [List.filter_eq_nil_iff]
      intro r hr hbeq
      exact hany (List.any_eq_true.mpr ⟨r, hr, by simpa using hbeq⟩)
    rw [hz]
    simp

/-- Claim C5: the appointment write of `Appointment.API.save` is an upsert:
if the appointment ids in the database are distinct, then after a successful
save exactly one appointment row carries the saved id (an existing row is
updated on the id conflict rather than duplicated); and the appointment
insert itself never fails: `save` succeeds for any non-colliding fresh visit
id no matter what the appointments table holds. -/
theorem save_upsert_single_row (id : Option String)
    (appointment : AppointmentInput) (currentUserName : String) (now : Date)
    (freshVisitId freshApptId : String) (db : DB) (aid : String) (db' : DB)
    (huniq : db.appointments.Pairwise (fun r s => r.id ≠ s.id))
    (h : Appointment.API.save id appointment currentUserName now freshVisitId
        freshApptId db = Except.ok (aid, db')) :
    (db'.appointments.filter (fun r => r.id == aid)).length = 1 ∧
    (∀ fv2, db.visits.any (fun v => v.id == fv2) = false →
      ∃ p, Appointment.API.save id appointment currentUserName now fv2
          freshApptId db = Except.ok p) := by
  obtain ⟨h1, _, _, _, h5⟩ :=
    save_ok_cases id appointment currentUserName now freshVisitId freshApptId
      db aid db' h
  subst h1
  refine ⟨?_, fun fv2 hfv2 =>
    save_ok_of_fresh id appointment currentUserName now fv2 freshApptId db
      hfv2⟩
  rw [h5]
  exact upsertRows_count_one db.appointments
    (saveNewRow appointment
      (orElseStr (orElseStr (id.getD "") appointment.id) freshApptId)
      (savedVisitId appointment freshVisitId) now)
    (saveConflictUpdate appointment
      (saveNewRow appointment
        (orElseStr (orElseStr (id.getD "") appointment.id) freshApptId)
        (savedVisitId appointment freshVisitId) now) now)
    (fun s => rfl) huniq

/-- Witness for C5 at a concrete input. -/
theorem save_upsert_single_row_witness :
    (exDb2.appointments.filter (fun r => r.id == "A")).length = 1 :=
  (save_upsert_single_row (some "A") exInput1 "u" 7 "V" "F" exDb0 "A" exDb2
    (by simp [exDb0]) rfl).1

/-- Claim C4: `Appointment.Sync.upsertFromDelta` applies no conflict
resolution or idempotency guard beyond the SQL upsert: for a delta whose id
names an existing appointment row, after the sync the rows carrying that id
hold exactly the delta's content fields, regardless of their prior state
(last-writer-wins, the row count unchanged), and re-applying the delta
performs the upsert again unconditionally (it succeeds for any fresh,
non-colliding visit id, with no guard comparing the stored row to the
delta). -/
theorem upsertFromDelta_last_writer_wins (delta : AppointmentInput)
    (now : Date) (freshDeltaId freshVisitId freshApptId : String) (db : DB)
    (aid : String) (db' : DB)
    (hid : delta.id ≠ "")
    (hex : ∃ r ∈ db.appointments, r.id = delta.id)
    (h : Appointment.Sync.upsertFromDelta delta now freshDeltaId freshVisitId
        freshApptId db = Except.ok (aid, db')) :
    aid = delta.id ∧
    (∀ r ∈ db'.appointments, r.id = delta.id →
      r.clinic_id = delta.clinic_id ∧ r.patient_id = delta.patient_id ∧
      r.user_id = delta.user_id ∧
      r.fulfilled_visit_id = delta.fulfilled_visit_id ∧
      r.timestamp = delta.timestamp ∧ r.duration = delta.duration ∧
      r.reason = delta.reason ∧ r.notes = delta.notes ∧
      r.status = delta.status ∧ r.metadata = delta.metadata ∧
      r.provider_id = delta.provider_id) ∧
    db'.appointments.length = db.appointments.length ∧
    (∀ fv2, db'.visits.any (fun v => v.id == fv2) = false →
      ∃ p, Appointment.Sync.upsertFromDelta delta now freshDeltaId fv2
          freshApptId db' = Except.ok p) := by
  obtain ⟨h1, _, _, _, h5⟩ :=
    save_ok_cases (some (orElseStr delta.id freshDeltaId)) delta "" now
      freshVisitId freshApptId db aid db' h
  have haid : orElseStr (orElseStr
      ((some (orElseStr delta.id freshDeltaId)).getD "") delta.id)
      freshApptId = delta.id := by
    simp [orElseStr, hid]
  rw [haid] at h1 h5
  subst h1
  have hany : db.appointments.any (fun r => r.id ==
      (saveNewRow delta delta.id (savedVisitId delta freshVisitId) now).id) =
      true := by
    obtain ⟨r, hr, hrid⟩ := hex
    exact List.any_eq_true.mpr ⟨r, hr, by simp [hrid]⟩
  refine ⟨rfl, ?_, ?_, ?_⟩
  · intro r hr hrid
    rw [h5] at hr
    rcases upsertRows_mem_cases _ _ _ r hr with hnew | ⟨_, hne⟩ | ⟨s, _, _, hupd⟩
    · rw [hnew]
      exact ⟨rfl, rfl, rfl, rfl, rfl, rfl, rfl, rfl, rfl, rfl, rfl⟩
    · exact absurd hrid hne
    · rw [hupd]
      exact ⟨rfl, rfl, rfl, rfl, rfl, rfl, rfl, rfl, rfl, rfl, rfl⟩
  · rw [h5]
    unfold upsertRows
    rw [if_pos hany]
    simp only [List.length_map]
  · intro fv2 hfv2
    exact save_ok_of_fresh (some (orElseStr delta.id freshDeltaId)) delta ""
      now fv2 freshApptId db' hfv2

/-- Witness for C4 at a concrete input. -/
theorem upsertFromDelta_last_writer_wins_witness :
    exDb4'.appointments.length = exDb4.appointments.length :=
  (upsertFromDelta_last_writer_wins exInput1 7 "D" "V" "F" exDb4 "A" exDb4'
    (by decide) ⟨exRowA, by simp [exDb4], rfl⟩ rfl).2.2.1

/-- Claim C3: `Clinic.softDelete(id)` performs one referential check: if
some non-deleted user row has `clinic_id` equal to the id, it throws and the
database — in particular the clinics table — is completely unchanged; only
when no such user exists does it set the clinic's deletion flag and
timestamp. -/
theorem clinic_softDelete_guard (i : String) (now : Date) (db : DB) :
    ((∃ u ∈ db.users, u.clinic_id = i ∧ u.is_deleted = false) →
      (Clinic.softDelete i now db).1.isSome = true ∧
      (Clinic.softDelete i now db).2 = db) ∧
    ((¬ ∃ u ∈ db.users, u.clinic_id = i ∧ u.is_deleted = false) →
      (Clinic.softDelete i now db).1 = none ∧
      (Clinic.softDelete i now db).2 = { db with
        clinics := db.clinics.map (fun r =>
          if r.id == i then
            { r with is_deleted := true, deleted_at := some now }
          else r) }) := by
  constructor
  · rintro ⟨u, hu, hc, hd⟩
    have hpos : 0 < (db.users.filter
        (fun u => u.clinic_id == i && u.is_deleted == false)).length :=
      List.length_pos_of_mem (List.mem_filter.mpr ⟨hu, by simp [hc, hd]⟩)
    unfold Clinic.softDelete
    rw [if_pos hpos]
    exact ⟨rfl, rfl⟩
  · intro hno
    have hz : db.users.filter
        (fun u => u.clinic_id == i && u.is_deleted == false) = [] := by
      rw [List.filter_eq_nil_iff]
      intro u hu hb
      simp only [Bool.and_eq_true, beq_iff_eq] at hb
      exact hno ⟨u, hu, hb.1, hb.2⟩
    unfold Clinic.softDelete
    rw [if_neg (by rw [hz]; simp)]
    exact ⟨rfl, rfl⟩

/-- Witness for C3 at a concrete input. -/
theorem clinic_softDelete_guard_witness :
    (Clinic.softDelete "c1" 5 exDbC).1.isSome = true ∧
    (Clinic.softDelete "c1" 5 exDbC).2 = exDbC :=
  (clinic_softDelete_guard "c1" 5 exDbC).1 ⟨exUser1, by simp [exDbC], rfl, rfl⟩

/-- Claim C6: soft deletion never removes a row.
`Appointment.API.softDelete` keeps the appointments table the same length,
touches no other table, leaves every row with a different id unchanged, and
replaces each row carrying the id by the same row with only `is_deleted`,
`deleted_at`, `updated_at` and `last_modified` changed.  When
`Clinic.softDelete` succeeds it does the same for the clinics table, setting
only `is_deleted` and `deleted_at`. -/
theorem soft_delete_never_removes (i : String) (now : Date) (db : DB) :
    ((Appointment.API.softDelete i now db).appointments.length =
        db.appointments.length ∧
      (Appointment.API.softDelete i now db).visits = db.visits ∧
      (Appointment.API.softDelete i now db).clinics = db.clinics ∧
      (Appointment.API.softDelete i now db).users = db.users ∧
      ∀ r ∈ db.appointments,
        (r.id ≠ i → r ∈ (Appointment.API.softDelete i now db).appointments) ∧
        (r.id = i → softDeletedAppointmentRow r now ∈
          (Appointment.API.softDelete i now db).appointments)) ∧
    ((Clinic.softDelete i now db).1 = none →
      (Clinic.softDelete i now db).2.clinics.length = db.clinics.length ∧
      (Clinic.softDelete i now db).2.appointments = db.appointments ∧
      (Clinic.softDelete i now db).2.visits = db.visits ∧
      (Clinic.softDelete i now db).2.users = db.users ∧
      ∀ r ∈ db.clinics,
        (r.id ≠ i → r ∈ (Clinic.softDelete i now db).2.clinics) ∧
        (r.id = i → softDeletedClinicRow r now ∈
          (Clinic.softDelete i now db).2.clinics)) := by
  constructor
  · refine ⟨by simp [Appointment.API.softDelete], rfl, rfl, rfl, ?_⟩
    intro r hr
    constructor
    · intro hne
      exact List.mem_map.mpr ⟨r, hr, by simp [hne]⟩
    · intro heq
      exact List.mem_map.mpr ⟨r, hr, by simp [heq, softDeletedAppointmentRow]⟩
  · intro hnone
    by_cases hpos : 0 < (db.users.filter
        (fun u => u.clinic_id == i && u.is_deleted == false)).length
    · exfalso
      unfold Clinic.softDelete at hnone
      rw [if_pos hpos] at hnone
      simp at hnone
    · unfold Clinic.softDelete
      rw [if_neg hpos]
      refine ⟨by simp, rfl, rfl, rfl, ?_⟩
      intro r hr
      constructor
      · intro hne
        exact List.mem_map.mpr ⟨r, hr, by simp [hne]⟩
      · intro heq
        exact List.mem_map.mpr ⟨r, hr, by simp [heq, softDeletedClinicRow]⟩

/-- Witness for C6 at a concrete input. -/
theorem soft_delete_never_removes_witness :
    softDeletedAppointmentRow exRowA 9 ∈
      (Appointment.API.softDelete "A" 9 exDb4).appointments :=
  ((soft_delete_never_removes "A" 9 exDb4).1.2.2.2.2 exRowA
    (by simp [exDb4])).2 rfl

/-- Claim C8: `Clinic.save({id, name})` inserts a brand-new clinic row under
a freshly generated UUID whenever the id is missing or has length at most 5
(so a genuine but short id creates a new clinic instead of renaming the
existing one); only an id longer than 5 characters updates that row's name,
and when no clinic has that id the update matches zero rows and the call
resolves successfully changing nothing. -/
theorem clinic_save_branches (id : Option String) (name : String)
    (now : Date) (freshId : String) (db : DB) :
    ((id = none ∨ ∃ s, id = some s ∧ s.length ≤ 5) →
      Clinic.save id name now freshId db =
        { db with clinics := db.clinics ++ [newClinicRow freshId name now] }) ∧
    (∀ s, id = some s → 5 < s.length →
      Clinic.save id name now freshId db =
        { db with clinics := db.clinics.map (fun r =>
            if r.id == s then { r with name := some name } else r) }) ∧
    (∀ s, id = some s → 5 < s.length → (∀ r ∈ db.clinics, r.id ≠ s) →
      Clinic.save id name now freshId db = db) := by
  refine ⟨?_, ?_, ?_⟩
  · rintro (rfl | ⟨s, rfl, hs⟩)
    · rfl
    · simp only [Clinic.save]
      rw [if_pos hs]
  · rintro s rfl hs
    simp only [Clinic.save]
    rw [if_neg (by omega)]
  · rintro s rfl hs hno
    simp only [Clinic.save]
    rw [if_neg (by omega)]
    have hcong : ∀ r ∈ db.clinics,
        (if r.id == s then { r with name := some name } else r) = id r :=
      fun r hr => by simp [hno r hr]
    rw [List.map_congr_left hcong, List.map_id]

/-- Witness for C8 at a concrete input. -/
theorem clinic_save_branches_witness :
    Clinic.save (some "longid") "N" 3 "f" exDbC = exDbC :=
  (clinic_save_branches (some "longid") "N" 3 "f" exDbC).2.2 "longid" rfl
    (by decide) (by decide)

/-- Claim C9: `Clinic.getAll`, `Appointment.API.getAll` and
`Appointment.API.getById` filter on `is_deleted = false`, so they never
return a soft-deleted row: after a soft delete of an id, `getById` of that
id returns `none` and the id appears in no `getAll` result, even though the
row is still in its table. -/
theorem getters_hide_soft_deleted (i : String) (now : Date) (db : DB) :
    (∀ r ∈ Clinic.getAll db, r.is_deleted = false) ∧
    (∀ r ∈ Appointment.API.getAll db, r.is_deleted = false) ∧
    (∀ r, Appointment.API.getById i db = some r →
      r.is_deleted = false ∧ r.id = i) ∧
    Appointment.API.getById i (Appointment.API.softDelete i now db) = none ∧
    (∀ r ∈ Appointment.API.getAll (Appointment.API.softDelete i now db),
      r.id ≠ i) ∧
    ((∃ r ∈ db.appointments, r.id = i) →
      ∃ r ∈ (Appointment.API.softDelete i now db).appointments, r.id = i) ∧
    ((Clinic.softDelete i now db).1 = none →
      (∀ r ∈ Clinic.getAll (Clinic.softDelete i now db).2, r.id ≠ i) ∧
      ((∃ r ∈ db.clinics, r.id = i) →
        ∃ r ∈ (Clinic.softDelete i now db).2.clinics, r.id = i)) := by
  refine ⟨?_, ?_, ?_, ?_, ?_, ?_, ?_⟩
  · intro r hr
    have := (List.mem_filter.mp hr).2
    simpa using this
  · intro r hr
    have := (List.mem_filter.mp hr).2
    simpa using this
  · intro r hr
    have hm := List.mem_filter.mp (List.mem_of_mem_head? hr)
    have := hm.2
    simp only [Bool.and_eq_true, beq_iff_eq] at this
    exact ⟨this.2, this.1⟩
  · unfold Appointment.API.getById
    have hz : (Appointment.API.softDelete i now db).appointments.filter
        (fun r => r.id == i && r.is_deleted == false) = [] := by
      rw [List.filter_eq_nil_iff]
      intro a ha
      obtain ⟨r0, _, rfl⟩ := List.mem_map.mp ha
      by_cases h0 : r0.id = i
      · simp [h0]
      · simp [h0]
    rw [hz]
    rfl
  · intro r hr
    obtain ⟨hm, hp⟩ := List.mem_filter.mp hr
    obtain ⟨r0, _, rfl⟩ := List.mem_map.mp hm
    by_cases h0 : r0.id = i
    · simp [h0] at hp
    · simp [h0]
  · rintro ⟨r, hr, hrid⟩
    exact ⟨softDeletedAppointmentRow r now,
      List.mem_map.mpr ⟨r, hr, by simp [hrid, softDeletedAppointmentRow]⟩,
      by simp [softDeletedAppointmentRow, hrid]⟩
  · intro hnone
    by_cases hpos : 0 < (db.users.filter
        (fun u => u.clinic_id == i && u.is_deleted == false)).length
    · exfalso
      unfold Clinic.softDelete at hnone
      rw [if_pos hpos] at hnone
      simp at hnone
    · unfold Clinic.softDelete
      rw [if_neg hpos]
      constructor
      · intro r hr
        obtain ⟨hm, hp⟩ := List.mem_filter.mp hr
        obtain ⟨r0, _, rfl⟩ := List.mem_map.mp hm
        by_cases h0 : r0.id = i
        · simp [h0] at hp
        · simp [h0]
      · rintro ⟨r, hr, hrid⟩
        exact ⟨softDeletedClinicRow r now,
          List.mem_map.mpr ⟨r, hr, by simp [hrid, softDeletedClinicRow]⟩,
          by simp [softDeletedClinicRow, hrid]⟩

/-- Witness for C9 at a concrete input. -/
theorem getters_hide_soft_deleted_witness :
    ∃ r ∈ (Appointment.API.softDelete "A" 9 exDb4).appointments, r.id = "A" :=
  (getters_hide_soft_deleted "A" 9 exDb4).2.2.2.2.2.1
    ⟨exRowA, by simp [exDb4], rfl⟩
